import Mathlib

/-!
Verification of the Ldpj_backend leak-detection pipeline.

Shallow embedding of the core components in Lean 4:
pressures, timestamps and probabilities are modelled as rationals,
Python `round` as round-half-to-even, fallible calls as `Except`.
Each definition mirrors one function of the source tree.
-/

/-! ### Rounding (Python `round(x, d)` on exact values, half-to-even) -/

/-- Round a rational to the nearest integer, halves to the even neighbour
(the rounding rule of Python's builtin `round`). -/
def rndHalfEven (x : ℚ) : ℤ :=
  if x - (⌊x⌋ : ℚ) < 1/2 then ⌊x⌋
  else if (1:ℚ)/2 < x - (⌊x⌋ : ℚ) then ⌊x⌋ + 1
  else if (2 : ℤ) ∣ ⌊x⌋ then ⌊x⌋ else ⌊x⌋ + 1

/-- Mirrors `round(x, d)` : round to `d` decimal places. -/
def roundTo (d : ℕ) (x : ℚ) : ℚ := (rndHalfEven (x * 10 ^ d) : ℚ) / 10 ^ d

/-- Mirrors `round(x, 3)`, the precision of all features except the slope. -/
def round3 (x : ℚ) : ℚ := roundTo 3 x

/-- Mirrors `round(x, 6)`, the precision of `trend_slope`, probability, confidence. -/
def round6 (x : ℚ) : ℚ := roundTo 6 x

/-! ### core/cycle_fsm.py -/

/-- One snapshot of one cabin (core/polling_engine.py, `CabinFrame`). -/
structure CabinFrame where
  cabin_index : ℤ
  rt_ai : ℤ
  rt_pressure : ℚ
  rt_position : ℤ
  rt_angle : ℚ
  timestamp : ℚ
deriving DecidableEq, Repr

/-- Accumulated data for one test cycle (`CycleData`). -/
structure CycleData where
  pressures : List ℚ
  angles : List ℚ
  timestamps : List ℚ
  ai_values : List ℤ
  positions : List ℤ
  start_time : ℚ
deriving DecidableEq, Repr

/-- A fresh `CycleData()` with a given `start_time` (0 by default). -/
def CycleData.empty (start_time : ℚ := 0) : CycleData :=
  ⟨[], [], [], [], [], start_time⟩

/-- Mirrors `CabinFSM._append`: push one frame onto all five parallel series. -/
def CycleData.appendFrame (d : CycleData) (f : CabinFrame) : CycleData :=
  { d with
    pressures := d.pressures ++ [f.rt_pressure]
    angles := d.angles ++ [f.rt_angle]
    timestamps := d.timestamps ++ [f.timestamp]
    ai_values := d.ai_values ++ [f.rt_ai]
    positions := d.positions ++ [f.rt_position] }

/-- The four states of `CycleState`. -/
inductive CycleState where
  | IDLE
  | COLLECTING
  | PROCESSING
  | FAULT
deriving DecidableEq, Repr

/-- The `cycle_detection` configuration section consumed by `CabinFSM`. -/
structure CycleCfg where
  start_pressure_drop : ℚ
  end_pressure_rise : ℚ
  min_collection_points : ℕ
  max_collection_points : ℕ
  max_collection_duration_s : ℚ
  collection_timeout_s : ℚ
  idle_pressure_min : ℚ
deriving DecidableEq, Repr

/-- The defaults hard-coded in `CabinFSM.__init__`. -/
def defaultCycleCfg : CycleCfg := ⟨50, 50, 100, 3000, 45, 60, 900⟩

/-- The mutable state of one `CabinFSM` instance. -/
structure CabinFSM where
  cabin_id : ℤ
  cfg : CycleCfg
  state : CycleState
  data : CycleData
  last_pressure : Option ℚ
deriving DecidableEq, Repr

/-- Mirrors `CabinFSM.__init__`: IDLE with empty data and no last pressure. -/
def CabinFSM.init (cabin_id : ℤ) (cfg : CycleCfg) : CabinFSM :=
  ⟨cabin_id, cfg, .IDLE, CycleData.empty, none⟩

/-- Mirrors `CabinFSM.point_count`: length of the accumulated pressure series. -/
def CabinFSM.point_count (m : CabinFSM) : ℕ := m.data.pressures.length

/-- End condition 1 of `_handle_collecting` as the source tests it:
a last pressure exists, the (post-append) point count has reached
`min_collection_points`, and the rise reaches `end_pressure_rise`. -/
def CabinFSM.riseEnd (m : CabinFSM) (f : CabinFrame) (d : CycleData) : Bool :=
  match m.last_pressure with
  | some lp =>
      decide (m.cfg.min_collection_points ≤ d.pressures.length) &&
      decide (m.cfg.end_pressure_rise ≤ f.rt_pressure - lp)
  | none => false

/-- Mirrors `CabinFSM._handle_idle`: start a cycle on a sufficient pressure drop. -/
def CabinFSM.handleIdle (m : CabinFSM) (f : CabinFrame) : CabinFSM :=
  match m.last_pressure with
  | none => m
  | some lp =>
      if m.cfg.start_pressure_drop ≤ lp - f.rt_pressure then
        { m with
          state := .COLLECTING
          data := (CycleData.empty f.timestamp).appendFrame f }
      else m

/-- Mirrors `CabinFSM._handle_collecting`: append the frame, then check, in order,
end-by-rise, max points, max duration, and finally the fault timeout. -/
def CabinFSM.handleCollecting (m : CabinFSM) (f : CabinFrame) : CabinFSM :=
  let d := m.data.appendFrame f
  let elapsed := f.timestamp - m.data.start_time
  if m.riseEnd f d then { m with state := .PROCESSING, data := d }
  else if m.cfg.max_collection_points ≤ d.pressures.length then
    { m with state := .PROCESSING, data := d }
  else if m.cfg.max_collection_duration_s ≤ elapsed then
    { m with state := .PROCESSING, data := d }
  else if m.cfg.collection_timeout_s ≤ elapsed then
    { m with state := .FAULT, data := d }
  else { m with data := d }

/-- Mirrors `CabinFSM.update`: dispatch on the state (PROCESSING and FAULT are
externally managed), then refresh the last-pressure baseline. -/
def CabinFSM.update (m : CabinFSM) (f : CabinFrame) : CabinFSM :=
  let m' :=
    match m.state with
    | .IDLE => m.handleIdle f
    | .COLLECTING => m.handleCollecting f
    | _ => m
  { m' with last_pressure := some f.rt_pressure }

/-- Mirrors `CabinFSM.harvest`: returns the data and does not change any state. -/
def CabinFSM.harvest (m : CabinFSM) : CycleData := m.data

/-- Mirrors `CabinFSM.reset`: back to IDLE, fresh data, baseline cleared. -/
def CabinFSM.reset (m : CabinFSM) : CabinFSM :=
  { m with state := .IDLE, data := CycleData.empty, last_pressure := none }

/-- Mirrors `CabinFSM.force_fault`: only the state changes; data is kept. -/
def CabinFSM.force_fault (m : CabinFSM) : CabinFSM :=
  { m with state := .FAULT }

/-- Mirrors `CabinFSM.clear_fault`: like reset, from FAULT. -/
def CabinFSM.clear_fault (m : CabinFSM) : CabinFSM :=
  { m with state := .IDLE, data := CycleData.empty, last_pressure := none }

/-- The public mutators of `CabinFSM` (`harvest` reads but is included
as the no-op it is on the state). -/
inductive FSMOp where
  | upd (f : CabinFrame)
  | reset
  | harvest
  | force_fault
  | clear_fault
deriving DecidableEq, Repr

/-- Apply one operation. -/
def CabinFSM.applyOp (m : CabinFSM) : FSMOp → CabinFSM
  | .upd f => m.update f
  | .reset => m.reset
  | .harvest => m
  | .force_fault => m.force_fault
  | .clear_fault => m.clear_fault

/-- Apply a sequence of operations, oldest first. -/
def CabinFSM.applyOps (m : CabinFSM) (ops : List FSMOp) : CabinFSM :=
  ops.foldl CabinFSM.applyOp m

/-- The part of the spec's FSM data invariant that the code maintains:
empty data in IDLE, non-empty data in COLLECTING and PROCESSING. -/
def fsmDataInvariant (m : CabinFSM) : Prop :=
  (m.state = .IDLE → m.data.pressures = []) ∧
  ((m.state = .COLLECTING ∨ m.state = .PROCESSING) → m.data.pressures ≠ [])

/-! ### core/features.py -/

/-- Mirrors `np.max` over a pressure series (0 on the empty list, never hit). -/
def listMax : List ℚ → ℚ
  | [] => 0
  | x :: xs => xs.foldl max x

/-- Mirrors `np.min` over a pressure series. -/
def listMin : List ℚ → ℚ
  | [] => 0
  | x :: xs => xs.foldl min x

/-- Mirrors `np.mean`. -/
def listMean (l : List ℚ) : ℚ := l.sum / l.length

/-- Mirrors `np.var`: population variance, mean of squared deviations. -/
def popVar (l : List ℚ) : ℚ :=
  (l.map (fun x => (x - listMean l) ^ 2)).sum / l.length

/-- Sum of the sample indices `0, 1, …, N−1`. -/
def idxSum (l : List ℚ) : ℚ := (l.enum.map (fun p => ((p.1 : ℚ)))).sum

/-- Sum of the squared sample indices. -/
def idxSqSum (l : List ℚ) : ℚ := (l.enum.map (fun p => ((p.1 : ℚ)) ^ 2)).sum

/-- Sum of index·value products. -/
def idxProdSum (l : List ℚ) : ℚ :=
  (l.enum.map (fun p => ((p.1 : ℚ)) * p.2)).sum

/-- Mirrors `np.polyfit(arange(N), arr, 1)[0]`: the degree-1 least-squares slope,
in normal-equation form over `x = 0…N−1` (division by a vanishing
denominator yields 0, mirroring the `except` fallback to slope 0). -/
def lsSlope (l : List ℚ) : ℚ :=
  ((l.length : ℚ) * idxProdSum l - idxSum l * l.sum) /
    ((l.length : ℚ) * idxSqSum l - (idxSum l) ^ 2)

/-- The feature contract's fixed keys. -/
structure FeatureVector where
  max : ℚ
  min : ℚ
  difference : ℚ
  average : ℚ
  variance : ℚ
  trend_slope : ℚ
  cavity_id : ℚ
deriving DecidableEq, Repr

/-- Mirrors `compute_features(pressures, cavity_id)`: all zeros (except the cast
cavity id) for fewer than two points; otherwise extrema, difference,
mean, population variance and least-squares slope, rounded to 3 decimals
(6 for the slope). -/
def compute_features (pressures : List ℚ) (cavity_id : ℤ) : FeatureVector :=
  if pressures.length < 2 then
    ⟨0, 0, 0, 0, 0, 0, (cavity_id : ℚ)⟩
  else
    let p_max := listMax pressures
    let p_min := listMin pressures
    ⟨round3 p_max, round3 p_min, round3 (p_max - p_min),
      round3 (listMean pressures), round3 (popVar pressures),
      round6 (lsSlope pressures), (cavity_id : ℚ)⟩

/-- Mean of the regression abscissas `0…N−1` (spec side). -/
def xMean (l : List ℚ) : ℚ := idxSum l / l.length

/-- Centred numerator `Σ (xᵢ − x̄)(yᵢ − ȳ)` of the textbook least-squares
slope (spec side; to be compared with the code's `lsSlope`). -/
def centeredNum (l : List ℚ) : ℚ :=
  (l.enum.map (fun p => ((p.1 : ℚ) - xMean l) * (p.2 - listMean l))).sum

/-- Centred denominator `Σ (xᵢ − x̄)²` (spec side). -/
def centeredDen (l : List ℚ) : ℚ :=
  (l.enum.map (fun p => ((p.1 : ℚ) - xMean l) ^ 2)).sum

/-- The statistical definition of the degree-1 least-squares slope
(spec side). -/
def centeredSlope (l : List ℚ) : ℚ := centeredNum l / centeredDen l

/-! ### models/supervised_xgb.py and pipeline/processing_loop.py -/

/-- The result shape returned by `SupervisedXGB.predict`. -/
structure InferenceResult where
  label : ℤ
  probability : ℚ
  confidence : ℚ
deriving DecidableEq, Repr

/-- The classification tail of `SupervisedXGB.predict`, as a function of
the probability `p` the scaled booster produced: label 1 iff
`p ≥ threshold`, confidence mirrored for label 0, both reported rounded
to 6 decimals. -/
def predict (p : ℚ) (threshold : ℚ) : InferenceResult :=
  let label : ℤ := if threshold ≤ p then 1 else 0
  let confidence := if label = 1 then p else 1 - p
  ⟨label, round6 p, round6 confidence⟩

/-- The result `_process_cabin` synthesizes when the model is not
loaded: `{"label": -1, "probability": 0.0, "confidence": 0.0}`. -/
def synthesizedResult : InferenceResult := ⟨-1, 0, 0⟩

/-- The inference step of `_process_cabin`: real prediction when the
model is loaded, the synthesized `-1` result otherwise. -/
def inferenceResultFor (loaded : Bool) (modelResult : InferenceResult) :
    InferenceResult :=
  if loaded then modelResult else synthesizedResult

/-! ### health/fault_codes.py and health/fault_reporter.py -/

/-- Severity levels. -/
inductive FaultLevel where
  | INFO
  | WARNING
  | ERROR
  | CRITICAL
deriving DecidableEq, Repr

/-- One registry entry. -/
structure FaultCode where
  code : String
  plc_value : ℤ
  level : FaultLevel
  description : String
deriving DecidableEq, Repr

/-- The fixed `FAULT_CODES` registry (descriptions abbreviated to the
mnemonic; no claim observes the Chinese description text). -/
def FAULT_CODES : List (String × FaultCode) :=
  [("F001", ⟨"F001", 1, .CRITICAL, "plc lost"⟩),
   ("F002", ⟨"F002", 2, .CRITICAL, "model load failed"⟩),
   ("F003", ⟨"F003", 3, .ERROR, "sensor anomaly"⟩),
   ("F004", ⟨"F004", 4, .WARNING, "latency"⟩),
   ("F005", ⟨"F005", 5, .ERROR, "disk"⟩),
   ("F006", ⟨"F006", 6, .ERROR, "db write"⟩),
   ("F007", ⟨"F007", 7, .WARNING, "db size"⟩),
   ("F008", ⟨"F008", 8, .ERROR, "poller dead"⟩),
   ("F009", ⟨"F009", 9, .WARNING, "fsm stuck"⟩),
   ("F010", ⟨"F010", 10, .WARNING, "alarm push"⟩)]

/-- Mirrors `get_fault`: registry lookup with a generic unknown-code fallback. -/
def get_fault (code : String) : FaultCode :=
  match FAULT_CODES.lookup code with
  | some fc => fc
  | none => ⟨code, 99, .ERROR, "unknown"⟩

/-- One fault event.  The source also carries a `resolved` flag that is
flipped on the aliased history entry at resolution; no claim observes
it, and active entries are removed rather than marked here. -/
structure FaultEvent where
  code : String
  message : String
  timestamp : ℚ
deriving DecidableEq, Repr

/-- The reporter state: insertion-ordered active map, append-only
history, and the sequence of callback invocations (`fired` records each
event passed to the registered callbacks, in order). -/
structure Reporter where
  active : List (String × FaultEvent)
  history : List FaultEvent
  fired : List FaultEvent
deriving DecidableEq, Repr

/-- A fresh `FaultReporter()`. -/
def Reporter.empty : Reporter := ⟨[], [], []⟩

/-- The mnemonics of the active set, in insertion order. -/
def Reporter.activeKeys (r : Reporter) : List String := r.active.map Prod.fst

/-- Mirrors `raise_fault(code, message)`: new events are added to the active
set and history and notified to every callback; an already-active code
only has its timestamp refreshed. The empty message defaults to the
registry description. -/
def Reporter.raise_fault (r : Reporter) (code message : String) (now : ℚ) :
    Reporter :=
  let msg := if message = "" then (get_fault code).description else message
  if code ∈ r.activeKeys then
    { r with
      active := r.active.map fun p =>
        if p.1 = code then (p.1, { p.2 with timestamp := now }) else p }
  else
    let event : FaultEvent := ⟨code, msg, now⟩
    { active := r.active ++ [(code, event)]
      history := r.history ++ [event]
      fired := r.fired ++ [event] }

/-- Mirrors `resolve_fault(code)`: drop the code from the active set. -/
def Reporter.resolve_fault (r : Reporter) (code : String) : Reporter :=
  { r with active := r.active.filter fun p => p.1 ≠ code }

/-! ### health/health_checker.py

The checker's injected references are duck-typed (`set_references`
takes `Any`); each access to them is modelled as an `Except String`
computation, an exception in that access surfacing as `.error`.
Probe bodies without a `try` block propagate such an error; the
entries keep only the fields the claims observe (status, error). -/

/-- One per-probe report entry. -/
structure Entry where
  status : String
  err : Option String
deriving DecidableEq, Repr

/-- The per-tick report of `run_all_checks` (one entry per probe). -/
structure HealthReport where
  plc_connection : Entry
  model_loaded : Entry
  disk_space : Entry
  inference_latency : Entry
  polling_thread : Entry
  fsm_stuck : Entry
  db_entry : Entry
deriving DecidableEq, Repr

/-- The inputs of one `run_all_checks` tick: per-probe enabled flags,
thresholds, and the outcomes of the accesses to the injected
subsystems. -/
structure HealthInputs where
  plc_enabled : Bool
  plc_connected : Except String Bool
  model_enabled : Bool
  model_loaded : Except String Bool
  disk_enabled : Bool
  disk_free_mb : Except String ℚ
  disk_min_free_mb : ℚ
  latency_enabled : Bool
  last_inference_ms : ℚ
  latency_max_ms : ℚ
  polling_enabled : Bool
  polling_alive : Except String Bool
  fsm_enabled : Bool
  fsms : List (ℕ × CabinFSM)
  fsm_max_stuck : ℚ
  db_present : Bool
  db_size_mb : Except String ℚ
  db_count : Except String ℕ
  now : ℚ

/-- Mirrors `_check_plc`: no `try` — an exception in the connectivity access
propagates. -/
def check_plc (enabled : Bool) (connected : Except String Bool) (now : ℚ)
    (r : Reporter) : Except String (Reporter × Entry) :=
  if !enabled then .ok (r, ⟨"SKIP", none⟩)
  else
    match connected with
    | .error e => .error e
    | .ok c =>
      if !c then .ok (r.raise_fault "F001" "plc lost" now, ⟨"FAIL", none⟩)
      else .ok (r.resolve_fault "F001", ⟨"OK", none⟩)

/-- Mirrors `_check_model`: no `try`. -/
def check_model (enabled : Bool) (loaded : Except String Bool) (now : ℚ)
    (r : Reporter) : Except String (Reporter × Entry) :=
  if !enabled then .ok (r, ⟨"SKIP", none⟩)
  else
    match loaded with
    | .error e => .error e
    | .ok ld =>
      if !ld then .ok (r.raise_fault "F002" "model not loaded" now, ⟨"FAIL", none⟩)
      else .ok (r.resolve_fault "F002", ⟨"OK", none⟩)

/-- Mirrors `_check_disk`: the one probe whose body is wrapped in `try`; a
failing `disk_usage` is reported as an ERROR entry and never
propagates (hence the total return type). -/
def check_disk (enabled : Bool) (usage : Except String ℚ) (minFree now : ℚ)
    (r : Reporter) : Reporter × Entry :=
  if !enabled then (r, ⟨"SKIP", none⟩)
  else
    match usage with
    | .error e => (r, ⟨"ERROR", some e⟩)
    | .ok freeMb =>
      if freeMb < minFree then
        (r.raise_fault "F005" "disk low" now, ⟨"FAIL", none⟩)
      else (r.resolve_fault "F005", ⟨"OK", none⟩)

/-- Mirrors `_check_latency`: pure arithmetic on checker-local state. -/
def check_latency (enabled : Bool) (lastMs maxMs now : ℚ) (r : Reporter) :
    Reporter × Entry :=
  if !enabled then (r, ⟨"SKIP", none⟩)
  else
    if maxMs < lastMs then
      (r.raise_fault "F004" "latency high" now, ⟨"WARN", none⟩)
    else (r.resolve_fault "F004", ⟨"OK", none⟩)

/-- Mirrors `_check_polling`: no `try`. -/
def check_polling (enabled : Bool) (alive : Except String Bool) (now : ℚ)
    (r : Reporter) : Except String (Reporter × Entry) :=
  if !enabled then .ok (r, ⟨"SKIP", none⟩)
  else
    match alive with
    | .error e => .error e
    | .ok al =>
      if !al then .ok (r.raise_fault "F008" "poller dead" now, ⟨"FAIL", none⟩)
      else .ok (r.resolve_fault "F008", ⟨"OK", none⟩)

/-- Mirrors `_check_fsm`'s stuck-cabin scan: a cabin is stuck when COLLECTING
and `now − start_time > max_stuck` (a zero `start_time` is falsy in
the source and yields elapsed 0). -/
def stuckCabins (fsms : List (ℕ × CabinFSM)) (now maxStuck : ℚ) : List ℕ :=
  (fsms.filter fun p =>
      decide (p.2.state = CycleState.COLLECTING) &&
      decide (maxStuck <
        (if p.2.data.start_time ≠ 0 then now - p.2.data.start_time else 0))).map
    Prod.fst

/-- Mirrors `_check_fsm`: raise F009 when some cabin is stuck, resolve F009
when none is.  A missing manager is folded into `enabled = false`. -/
def check_fsm (enabled : Bool) (fsms : List (ℕ × CabinFSM))
    (now maxStuck : ℚ) (r : Reporter) : Reporter × Entry :=
  if !enabled then (r, ⟨"SKIP", none⟩)
  else
    let stuck := stuckCabins fsms now maxStuck
    if stuck.isEmpty then (r.resolve_fault "F009", ⟨"OK", none⟩)
    else (r.raise_fault "F009" "fsm stuck" now, ⟨"WARN", none⟩)

/-- Mirrors `_check_database`: no `try`; the status is "OK" even when F007 is
raised, and a missing logger reference yields SKIP. -/
def check_database (present : Bool) (sizeMb : Except String ℚ)
    (count : Except String ℕ) (now : ℚ) (r : Reporter) :
    Except String (Reporter × Entry) :=
  if !present then .ok (r, ⟨"SKIP", none⟩)
  else
    match sizeMb with
    | .error e => .error e
    | .ok sz =>
      match count with
      | .error e => .error e
      | .ok _ =>
        if 450 < sz then .ok (r.raise_fault "F007" "db big" now, ⟨"OK", none⟩)
        else .ok (r.resolve_fault "F007", ⟨"OK", none⟩)

/-- Mirrors `run_all_checks`: the seven probes in source order, threading the
fault reporter; an uncaught probe exception aborts the whole report. -/
def run_all_checks (inp : HealthInputs) (r : Reporter) :
    Except String (Reporter × HealthReport) := do
  let (r, e1) ← check_plc inp.plc_enabled inp.plc_connected inp.now r
  let (r, e2) ← check_model inp.model_enabled inp.model_loaded inp.now r
  let (r, e3) := check_disk inp.disk_enabled inp.disk_free_mb
    inp.disk_min_free_mb inp.now r
  let (r, e4) := check_latency inp.latency_enabled inp.last_inference_ms
    inp.latency_max_ms inp.now r
  let (r, e5) ← check_polling inp.polling_enabled inp.polling_alive inp.now r
  let (r, e6) := check_fsm inp.fsm_enabled inp.fsms inp.now inp.fsm_max_stuck r
  let (r, e7) ← check_database inp.db_present inp.db_size_mb inp.db_count
    inp.now r
  return (r, ⟨e1, e2, e3, e4, e5, e6, e7⟩)

/-- One tick of the checker's background `_loop`: `run_all_checks`
inside a catch-all, so the worker thread survives any probe error. -/
def loopTick (inp : HealthInputs) (r : Reporter) : Reporter :=
  match run_all_checks inp r with
  | .ok (r', _) => r'
  | .error _ => r

/-! ### core/exceptions.py, integration/result_sender.py,
core/polling_engine.py (S7Connection) -/

/-- The exception classes the PLC paths raise. -/
inductive LdpjError where
  | PLCConnectionError (msg : String)
  | PLCReadError (msg : String)
  | PLCWriteError (msg : String)
deriving DecidableEq, Repr

/-- Python `int(x)`: truncation toward zero. -/
def pytrunc (x : ℚ) : ℤ := if x < 0 then ⌈x⌉ else ⌊x⌋

/-- The `write_back` / `fault_write` sections of `plc.yaml`. -/
structure SenderCfg where
  wb_db : ℤ
  wb_offset : ℤ
  wb_scale : ℚ
  wb_base : ℤ
  fw_db : ℤ
  fw_offset : ℤ
deriving DecidableEq, Repr

/-- The defaults of `ResultSender.__init__`. -/
def defaultSenderCfg : SenderCfg := ⟨9, 200, 10, 0, 9, 202⟩

/-- The status word `write_result` encodes:
`base + int(probability * scale)` for label 1, else `base`. -/
def resultValue (cfg : SenderCfg) (label : ℤ) (probability : ℚ) : ℤ :=
  if label = 1 then cfg.wb_base + pytrunc (probability * cfg.wb_scale)
  else cfg.wb_base

/-- One PLC data-block write request (block, byte offset, int16 value). -/
structure WriteCall where
  db : ℤ
  offset : ℤ
  value : ℤ
deriving DecidableEq, Repr

/-- The write request `write_result` issues. -/
def writeResultCall (cfg : SenderCfg) (label : ℤ) (probability : ℚ) :
    WriteCall :=
  ⟨cfg.wb_db, cfg.wb_offset, resultValue cfg label probability⟩

/-- Mirrors `ResultSender.write_result`: a failing underlying `db_write` is
re-raised to the caller as `PLCWriteError`. -/
def write_result (cfg : SenderCfg) (underlying : Except String Unit)
    (label : ℤ) (probability : ℚ) : Except LdpjError WriteCall :=
  let call := writeResultCall cfg label probability
  match underlying with
  | .ok _ => .ok call
  | .error e => .error (.PLCWriteError ("write_result failed: " ++ e))

/-- Mirrors `ResultSender.write_fault_code`: the `except` clause only logs; a
failing underlying write is swallowed and nothing is raised. -/
def write_fault_code (cfg : SenderCfg) (underlying : Except String Unit)
    (plc_value : ℤ) : Except LdpjError Unit :=
  match underlying with
  | .ok _ => .ok ()
  | .error _ => .ok ()

/-- The connection flag of one `S7Connection`. -/
structure S7State where
  connected : Bool
deriving DecidableEq, Repr

/-- Mirrors `S7Connection.connect`: a failing snap7 connect leaves the
transport disconnected and raises `PLCConnectionError`. -/
def s7_connect (s : S7State) (client : Except String Unit) :
    S7State × Except LdpjError Unit :=
  match client with
  | .ok _ => (⟨true⟩, .ok ())
  | .error e =>
    (⟨false⟩, .error (.PLCConnectionError ("Cannot connect to PLC: " ++ e)))

/-- Mirrors `S7Connection.db_read`: refuse when not connected; a failing client
read marks the transport disconnected and raises `PLCReadError`. -/
def s7_db_read (s : S7State) (client : Except String (List ℕ)) :
    S7State × Except LdpjError (List ℕ) :=
  if !s.connected then (s, .error (.PLCConnectionError "PLC not connected"))
  else
    match client with
    | .ok bs => (s, .ok bs)
    | .error e => (⟨false⟩, .error (.PLCReadError ("db_read failed: " ++ e)))

/-- Mirrors `S7Connection.db_write`: refuse when not connected; a failing client
write marks the transport disconnected and raises — as the source is
written — `PLCConnectionError`, not `PLCWriteError`. -/
def s7_db_write (s : S7State) (client : Except String Unit) :
    S7State × Except LdpjError Unit :=
  if !s.connected then (s, .error (.PLCConnectionError "PLC not connected"))
  else
    match client with
    | .ok _ => (s, .ok ())
    | .error e =>
      (⟨false⟩, .error (.PLCConnectionError ("db_write failed: " ++ e)))

/-- Whether an `Except` computation succeeded. -/
def exceptIsOk {ε α : Type} : Except ε α → Bool
  | .ok _ => true
  | .error _ => false

/-! ### Statement-level conditions and concrete instances -/

/-- End condition 1 of the spec: a previous pressure exists, the
post-append point count has reached `min_collection_points`, and
`P − P₋₁ ≥ end_pressure_rise`. -/
def Cond1 (m : CabinFSM) (f : CabinFrame) : Prop :=
  ∃ lp, m.last_pressure = some lp ∧
    m.cfg.min_collection_points ≤ (m.data.appendFrame f).pressures.length ∧
    m.cfg.end_pressure_rise ≤ f.rt_pressure - lp

/-- End condition 2: the post-append point count has reached
`max_collection_points`. -/
def Cond2 (m : CabinFSM) (f : CabinFrame) : Prop :=
  m.cfg.max_collection_points ≤ (m.data.appendFrame f).pressures.length

/-- End condition 3: `ts − start_time ≥ max_collection_duration_s`. -/
def Cond3 (m : CabinFSM) (f : CabinFrame) : Prop :=
  m.cfg.max_collection_duration_s ≤ f.timestamp - m.data.start_time

/-- Fault condition: `ts − start_time ≥ collection_timeout_s`. -/
def CondTimeout (m : CabinFSM) (f : CabinFrame) : Prop :=
  m.cfg.collection_timeout_s ≤ f.timestamp - m.data.start_time

/-- A frame at the idle pressure plateau. -/
def frameHigh : CabinFrame := ⟨0, 0, 1000, 0, 0, 0⟩

/-- A frame 60 mbar below the plateau, one tick later. -/
def frameDrop : CabinFrame := ⟨0, 0, 940, 0, 0, 1/10⟩

/-- Enter COLLECTING from a fresh FSM, then force a fault: the data
gathered while collecting survives into the FAULT state. -/
def c1Ops : List FSMOp := [.upd frameHigh, .upd frameDrop, .force_fault]

/-- An FSM mid-collection with one point gathered. -/
def mCollecting : CabinFSM :=
  ⟨0, defaultCycleCfg, .COLLECTING, ⟨[940], [0], [1], [0], [0], 1⟩, some 940⟩

/-- The next frame, a small rise well before any terminator. -/
def fNext : CabinFrame := ⟨0, 0, 945, 0, 0, 2⟩

/-- A reporter with F009 active. -/
def reporterWithF009 : Reporter := Reporter.empty.raise_fault "F009" "stuck" 0

/-- A health tick on which the PLC connectivity access raises. -/
def inpPLCDown : HealthInputs :=
  { plc_enabled := true
    plc_connected := .error "boom"
    model_enabled := true
    model_loaded := .ok true
    disk_enabled := true
    disk_free_mb := .ok 1000
    disk_min_free_mb := 100
    latency_enabled := true
    last_inference_ms := 0
    latency_max_ms := 500
    polling_enabled := true
    polling_alive := .ok true
    fsm_enabled := true
    fsms := []
    fsm_max_stuck := 120
    db_present := true
    db_size_mb := .ok 1
    db_count := .ok 0
    now := 0 }

/-! ## Theorems -/

/-! ### Fault reporter lemmas -/

theorem mem_activeKeys_iff (r : Reporter) (c : String) :
    c ∈ r.activeKeys ↔ ∃ p ∈ r.active, p.1 = c := by
  simp [Reporter.activeKeys, List.mem_map]

theorem activeKeys_raise_fault (r : Reporter) (c m : String) (t : ℚ)
    (h : c ∉ r.activeKeys) :
    (r.raise_fault c m t).activeKeys = r.activeKeys ++ [c] := by
  simp only [Reporter.raise_fault]
  rw [if_neg h]
  simp [Reporter.activeKeys]

theorem mem_activeKeys_raise_fault (r : Reporter) (c m : String) (t : ℚ) :
    c ∈ (r.raise_fault c m t).activeKeys := by
  by_cases h : c ∈ r.activeKeys
  · obtain ⟨p, hp, hpc⟩ := (mem_activeKeys_iff r c).mp h
    simp only [Reporter.raise_fault]
    rw [if_pos h]
    apply (mem_activeKeys_iff _ c).mpr
    refine ⟨(p.1, { p.2 with timestamp := t }), ?_, hpc⟩
    have hfp : (fun q =>
        if q.1 = c then (q.1, { q.2 with timestamp := t }) else q) p =
        (p.1, { p.2 with timestamp := t }) := by simp [hpc]
    rw [← hfp]
    exact List.mem_map_of_mem _ hp
  · rw [activeKeys_raise_fault r c m t h]
    simp

theorem not_mem_activeKeys_resolve_fault (r : Reporter) (c : String) :
    c ∉ (r.resolve_fault c).activeKeys := by
  simp only [Reporter.resolve_fault, Reporter.activeKeys, List.mem_map]
  rintro ⟨p, hp, rfl⟩
  have := List.of_mem_filter hp
  simp at this

/-- C5. `raise_fault` deduplicates: raising an already-active code only
refreshes the timestamp — no second active event, no new history entry,
no callback re-notification — and a subsequent `resolve_fault` removes
the code from the active set. -/
theorem fault_dedup_raise_twice_resolve (r : Reporter) (c m1 m2 : String)
    (t1 t2 : ℚ) (h : c ∉ r.activeKeys) :
    ((r.raise_fault c m1 t1).raise_fault c m2 t2).active =
      r.active ++ [(c, ⟨c, if m1 = "" then (get_fault c).description else m1, t2⟩)] ∧
    ((r.raise_fault c m1 t1).raise_fault c m2 t2).activeKeys.count c = 1 ∧
    ((r.raise_fault c m1 t1).raise_fault c m2 t2).fired =
      (r.raise_fault c m1 t1).fired ∧
    (r.raise_fault c m1 t1).fired.length = r.fired.length + 1 ∧
    ((r.raise_fault c m1 t1).raise_fault c m2 t2).history =
      (r.raise_fault c m1 t1).history ∧
    c ∉ (((r.raise_fault c m1 t1).raise_fault c m2 t2).resolve_fault c).activeKeys
    := by
  have hkey : ∀ p ∈ r.active, p.1 ≠ c := by
    intro p hp hpc
    exact h (by simpa [Reporter.activeKeys, hpc] using List.mem_map_of_mem Prod.fst hp)
  have h1 : r.raise_fault c m1 t1 =
      ⟨r.active ++ [(c, ⟨c, if m1 = "" then (get_fault c).description else m1, t1⟩)],
        r.history ++ [⟨c, if m1 = "" then (get_fault c).description else m1, t1⟩],
        r.fired ++ [⟨c, if m1 = "" then (get_fault c).description else m1, t1⟩]⟩ := by
    simp only [Reporter.raise_fault]
    rw [if_neg h]
  have hc1 : c ∈ (r.raise_fault c m1 t1).activeKeys :=
    mem_activeKeys_raise_fault r c m1 t1
  have hc1L : c ∈ (⟨r.active ++
      [(c, ⟨c, if m1 = "" then (get_fault c).description else m1, t1⟩)],
      r.history ++ [⟨c, if m1 = "" then (get_fault c).description else m1, t1⟩],
      r.fired ++ [⟨c, if m1 = "" then (get_fault c).description else m1, t1⟩]⟩ :
        Reporter).activeKeys := h1 ▸ hc1
  have hfull : (r.raise_fault c m1 t1).raise_fault c m2 t2 =
      ⟨r.active ++ [(c, ⟨c, if m1 = "" then (get_fault c).description else m1, t2⟩)],
        r.history ++ [⟨c, if m1 = "" then (get_fault c).description else m1, t1⟩],
        r.fired ++ [⟨c, if m1 = "" then (get_fault c).description else m1, t1⟩]⟩ := by
    rw [h1]
    simp only [Reporter.raise_fault]
    rw [if_pos hc1L, List.map_append]
    have hid : r.active.map (fun p =>
        if p.1 = c then (p.1, { p.2 with timestamp := t2 }) else p) =
        r.active.map id :=
      List.map_congr_left (fun p hp => if_neg (hkey p hp))
    rw [hid, List.map_id]
    simp
  have hkeys : ((r.raise_fault c m1 t1).raise_fault c m2 t2).activeKeys =
      r.activeKeys ++ [c] := by
    rw [Reporter.activeKeys, hfull]
    simp [Reporter.activeKeys]
  refine ⟨by rw [hfull], ?_, ?_, ?_, ?_, ?_⟩
  · rw [hkeys, List.count_append, List.count_eq_zero.mpr h]
    simp
  · rw [hfull, h1]
  · rw [h1]
    simp
  · rw [hfull, h1]
  · exact not_mem_activeKeys_resolve_fault _ c

/-- C5 witness: the dedup law at a fresh reporter and code F004. -/
theorem fault_dedup_witness :
    ((Reporter.empty.raise_fault "F004" "" 1).raise_fault "F004" "" 2).active =
      Reporter.empty.active ++
        [("F004", ⟨"F004", if "" = "" then (get_fault "F004").description else "", 2⟩)] ∧
    ((Reporter.empty.raise_fault "F004" "" 1).raise_fault "F004" "" 2).activeKeys.count "F004" = 1 ∧
    ((Reporter.empty.raise_fault "F004" "" 1).raise_fault "F004" "" 2).fired =
      (Reporter.empty.raise_fault "F004" "" 1).fired ∧
    (Reporter.empty.raise_fault "F004" "" 1).fired.length =
      Reporter.empty.fired.length + 1 ∧
    ((Reporter.empty.raise_fault "F004" "" 1).raise_fault "F004" "" 2).history =
      (Reporter.empty.raise_fault "F004" "" 1).history ∧
    "F004" ∉ (((Reporter.empty.raise_fault "F004" "" 1).raise_fault "F004" "" 2).resolve_fault "F004").activeKeys :=
  fault_dedup_raise_twice_resolve Reporter.empty "F004" "" "" 1 2 (by decide)

/-! ### C6: result-sender error propagation -/

/-- C6 counterexample: a failing underlying write inside
`write_fault_code` is swallowed — the call returns normally instead of
raising `PLCWriteError`. -/
theorem write_fault_code_swallows :
    write_fault_code defaultSenderCfg (Except.error "io failure") 3 =
      Except.ok () := rfl

/-- C6 (amended): `write_result` re-raises a failing PLC write as
`PLCWriteError`, while `write_fault_code` catches the failure and
returns normally. -/
theorem result_sender_write_failures (cfg : SenderCfg) (e : String)
    (label : ℤ) (probability : ℚ) (plc_value : ℤ) :
    write_result cfg (Except.error e) label probability =
      Except.error (.PLCWriteError ("write_result failed: " ++ e)) ∧
    write_fault_code cfg (Except.error e) plc_value = Except.ok () :=
  ⟨rfl, rfl⟩

/-! ### C9: S7 transport error kinds -/

/-- C9 counterexample: a failing `db_write` on a connected transport
raises the connection-lost kind (`PLCConnectionError`), not a distinct
write-failure kind. -/
theorem s7_db_write_error_kind :
    (s7_db_write ⟨true⟩ (Except.error "io")).2 =
      Except.error (.PLCConnectionError ("db_write failed: " ++ "io")) := rfl

/-- C9 (amended): `connect` fails with the connection-lost kind,
`db_read` with the read-failure kind, but `db_write` also fails with
the connection-lost kind; every failing read or write leaves the
transport not connected. -/
theorem s7_error_kinds (s : S7State) (e : String)
    (wclient : Except String Unit) (rclient : Except String (List ℕ)) :
    ((s7_connect s (Except.error e)).1.connected = false ∧
      (s7_connect s (Except.error e)).2 =
        Except.error (.PLCConnectionError ("Cannot connect to PLC: " ++ e))) ∧
    (s.connected = true →
      (s7_db_read s (Except.error e)).2 =
        Except.error (.PLCReadError ("db_read failed: " ++ e)) ∧
      (s7_db_read s (Except.error e)).1.connected = false) ∧
    (s.connected = true →
      (s7_db_write s (Except.error e)).2 =
        Except.error (.PLCConnectionError ("db_write failed: " ++ e)) ∧
      (s7_db_write s (Except.error e)).1.connected = false) ∧
    (exceptIsOk (s7_db_read s rclient).2 = false →
      (s7_db_read s rclient).1.connected = false) ∧
    (exceptIsOk (s7_db_write s wclient).2 = false →
      (s7_db_write s wclient).1.connected = false) := by
  obtain ⟨c⟩ := s
  refine ⟨⟨rfl, rfl⟩, ?_, ?_, ?_, ?_⟩
  · rintro rfl
    exact ⟨rfl, rfl⟩
  · rintro rfl
    exact ⟨rfl, rfl⟩
  · cases c
    · intro _
      rfl
    · cases rclient with
      | ok bs => intro hk; cases hk
      | error e' => intro _; rfl
  · cases c
    · intro _
      rfl
    · cases wclient with
      | ok u => intro hk; cases hk
      | error e' => intro _; rfl

/-- C9 witness: the three failure kinds at a connected transport and a
failing client operation. -/
theorem s7_error_kinds_witness :
    (s7_db_read ⟨true⟩ (Except.error "io")).2 =
      Except.error (.PLCReadError ("db_read failed: " ++ "io")) ∧
    (s7_db_read ⟨true⟩ (Except.error "io")).1.connected = false ∧
    (s7_connect ⟨true⟩ (Except.error "io")).1.connected = false ∧
    (s7_db_write ⟨true⟩ (Except.error "io")).1.connected = false :=
  ⟨((s7_error_kinds ⟨true⟩ "io" (Except.error "io") (Except.error "io")).2.1 rfl).1,
   ((s7_error_kinds ⟨true⟩ "io" (Except.error "io") (Except.error "io")).2.1 rfl).2,
   (s7_error_kinds ⟨true⟩ "io" (Except.error "io") (Except.error "io")).1.1,
   ((s7_error_kinds ⟨true⟩ "io" (Except.error "io") (Except.error "io")).2.2.1 rfl).2⟩

/-! ### C10: write-back value for non-OK labels -/

/-- C10. Every label other than 1 — the leak label 0 as well as the
synthesized −1 of the model-not-loaded path — makes `write_result`
write exactly the leak base value, so the PLC word of an unprocessed
cycle is indistinguishable from a detected leak. -/
theorem write_result_label_ne_one (cfg : SenderCfg) (label : ℤ)
    (probability : ℚ) (h : label ≠ 1) :
    resultValue cfg label probability = cfg.wb_base ∧
    (∀ (r : InferenceResult), inferenceResultFor false r = synthesizedResult) ∧
    synthesizedResult.label = -1 ∧
    (∀ (p q : ℚ), writeResultCall cfg synthesizedResult.label q =
      writeResultCall cfg 0 p) := by
  refine ⟨by simp [resultValue, h], fun r => rfl, rfl, fun p q => ?_⟩
  simp [writeResultCall, resultValue, synthesizedResult]

/-- C10 witness: at the default write-back configuration and the
synthesized label. -/
theorem write_result_label_ne_one_witness :
    resultValue defaultSenderCfg (-1) 0 = defaultSenderCfg.wb_base ∧
    (∀ (r : InferenceResult), inferenceResultFor false r = synthesizedResult) ∧
    synthesizedResult.label = -1 ∧
    (∀ (p q : ℚ), writeResultCall defaultSenderCfg synthesizedResult.label q =
      writeResultCall defaultSenderCfg 0 p) :=
  write_result_label_ne_one defaultSenderCfg (-1) 0 (by decide)

/-! ### C8: the FSM probe and F009 -/

/-- C8 counterexample: with F009 active and no stuck cabin, one
execution of the FSM probe removes F009 from the active set — the
probe's resolve action is not "none". -/
theorem check_fsm_resolves_f009 :
    "F009" ∈ reporterWithF009.activeKeys ∧
    "F009" ∉ ((check_fsm true [] 100 120 reporterWithF009).1).activeKeys := by
  constructor
  · decide
  · simp only [check_fsm]
    have : stuckCabins [] 100 120 = [] := rfl
    rw [this]
    exact not_mem_activeKeys_resolve_fault _ _

/-- C8 (amended): the FSM probe raises F009 (keeping it active) when
some cabin has been COLLECTING longer than `max_stuck_duration_s`, and
resolves F009 — removing it from the active set — when no cabin is
stuck. -/
theorem check_fsm_f009 (fsms : List (ℕ × CabinFSM)) (now maxStuck : ℚ)
    (r : Reporter) :
    (stuckCabins fsms now maxStuck ≠ [] →
      "F009" ∈ ((check_fsm true fsms now maxStuck r).1).activeKeys) ∧
    (stuckCabins fsms now maxStuck = [] →
      "F009" ∉ ((check_fsm true fsms now maxStuck r).1).activeKeys) := by
  constructor
  · intro hne
    simp only [check_fsm, Bool.not_true, Bool.false_eq_true, if_false]
    rw [if_neg (by simpa [List.isEmpty_iff] using hne)]
    exact mem_activeKeys_raise_fault r "F009" "fsm stuck" now
  · intro heq
    simp only [check_fsm, Bool.not_true, Bool.false_eq_true, if_false]
    rw [if_pos (by simpa [List.isEmpty_iff] using heq)]
    exact not_mem_activeKeys_resolve_fault r "F009"

/-- C8 witness: no cabin stuck at an empty manager, F009 resolved. -/
theorem check_fsm_f009_witness :
    "F009" ∉ ((check_fsm true [] 5 120 Reporter.empty).1).activeKeys :=
  (check_fsm_f009 [] 5 120 Reporter.empty).2 rfl

/-! ### C7: probe exceptions and run_all_checks -/

/-- C7 counterexample: an exception in the PLC probe's connectivity
access propagates out of `run_all_checks` instead of being reported in
that probe's entry. -/
theorem run_all_checks_propagates :
    run_all_checks inpPLCDown Reporter.empty = Except.error "boom" := rfl

/-- C7 (amended): only the disk probe catches its exception, reporting
status ERROR with the message in its own entry; an exception in
another probe (here the PLC probe) propagates out of `run_all_checks`,
and only the background loop's catch-all (`loopTick`) keeps the
checker alive. -/
theorem probe_exception_handling (e : String) (minFree now : ℚ)
    (r : Reporter) (inp : HealthInputs) :
    check_disk true (Except.error e) minFree now r = (r, ⟨"ERROR", some e⟩) ∧
    (inp.plc_enabled = true → inp.plc_connected = Except.error e →
      run_all_checks inp r = Except.error e ∧ loopTick inp r = r) := by
  refine ⟨rfl, fun h1 h2 => ?_⟩
  have hrun : run_all_checks inp r = Except.error e := by
    unfold run_all_checks
    rw [h1, h2]
    rfl
  exact ⟨hrun, by simp [loopTick, hrun]⟩

/-- C7 witness: at the concrete failing-PLC tick. -/
theorem probe_exception_handling_witness :
    check_disk true (Except.error "boom") 100 0 Reporter.empty =
      (Reporter.empty, ⟨"ERROR", some "boom"⟩) ∧
    run_all_checks inpPLCDown Reporter.empty = Except.error "boom" ∧
    loopTick inpPLCDown Reporter.empty = Reporter.empty :=
  ⟨(probe_exception_handling "boom" 100 0 Reporter.empty inpPLCDown).1,
   ((probe_exception_handling "boom" 100 0 Reporter.empty inpPLCDown).2 rfl rfl).1,
   ((probe_exception_handling "boom" 100 0 Reporter.empty inpPLCDown).2 rfl rfl).2⟩

/-! ### C1: the FSM data invariant -/

/-- C1 counterexample: enter COLLECTING (one point gathered), then
`force_fault`: the FSM is in FAULT with `point_count = 1`, so
"point_count ≥ 1 iff state ∈ {COLLECTING, PROCESSING}" fails. -/
theorem fsm_fault_keeps_data :
    ¬ (1 ≤ ((CabinFSM.init 0 defaultCycleCfg).applyOps c1Ops).point_count ↔
        (((CabinFSM.init 0 defaultCycleCfg).applyOps c1Ops).state =
            CycleState.COLLECTING ∨
          ((CabinFSM.init 0 defaultCycleCfg).applyOps c1Ops).state =
            CycleState.PROCESSING)) := by
  have hstep : (CabinFSM.init 0 defaultCycleCfg).applyOps c1Ops =
      ⟨0, defaultCycleCfg, .FAULT, ⟨[940], [0], [1/10], [0], [0], 1/10⟩,
        some 940⟩ := by
    simp only [c1Ops, CabinFSM.applyOps, List.foldl, CabinFSM.applyOp,
      CabinFSM.init, CabinFSM.update, CabinFSM.handleIdle,
      CabinFSM.force_fault, frameHigh, frameDrop, defaultCycleCfg]
    norm_num [CycleData.empty, CycleData.appendFrame]
  rw [hstep]
  simp [CabinFSM.point_count]

theorem applyOp_invariant (m : CabinFSM) (op : FSMOp)
    (h : fsmDataInvariant m) : fsmDataInvariant (m.applyOp op) := by
  cases op with
  | upd f =>
    cases hst : m.state with
    | IDLE =>
      have hdata : m.data.pressures = [] := h.1 hst
      cases hlp : m.last_pressure with
      | none =>
        simp only [CabinFSM.applyOp, CabinFSM.update, hst,
          CabinFSM.handleIdle, hlp]
        exact ⟨fun _ => hdata, fun hc => by simp [hst] at hc⟩
      | some lp =>
        simp only [CabinFSM.applyOp, CabinFSM.update, hst,
          CabinFSM.handleIdle, hlp]
        by_cases hdrop : m.cfg.start_pressure_drop ≤ lp - f.rt_pressure
        · rw [if_pos hdrop]
          exact ⟨fun hi => by simp at hi, fun _ => by
            simp [CycleData.empty, CycleData.appendFrame]⟩
        · rw [if_neg hdrop]
          exact ⟨fun _ => hdata, fun hc => by simp [hst] at hc⟩
    | COLLECTING =>
      simp only [CabinFSM.applyOp, CabinFSM.update, hst,
        CabinFSM.handleCollecting]
      split
      · exact ⟨fun hi => by simp at hi, fun _ => by
          simp [CycleData.appendFrame]⟩
      · split
        · exact ⟨fun hi => by simp at hi, fun _ => by
            simp [CycleData.appendFrame]⟩
        · split
          · exact ⟨fun hi => by simp at hi, fun _ => by
              simp [CycleData.appendFrame]⟩
          · split
            · exact ⟨fun hi => by simp at hi, fun hc => by
                rcases hc with hc | hc <;> simp at hc⟩
            · exact ⟨fun hi => by simp at hi, fun _ => by
                simp [CycleData.appendFrame]⟩
    | PROCESSING =>
      simp only [CabinFSM.applyOp, CabinFSM.update, hst]
      exact ⟨fun hi => by simp at hi, fun _ => h.2 (Or.inr hst)⟩
    | FAULT =>
      simp only [CabinFSM.applyOp, CabinFSM.update, hst]
      exact ⟨fun hi => by simp at hi, fun hc => by
        rcases hc with hc | hc <;> simp at hc⟩
  | reset =>
    exact ⟨fun _ => rfl, fun hc => by
      rcases hc with hc | hc <;> simp [CabinFSM.applyOp, CabinFSM.reset] at hc⟩
  | harvest => exact h
  | force_fault =>
    exact ⟨fun hi => by simp [CabinFSM.applyOp, CabinFSM.force_fault] at hi,
      fun hc => by
        rcases hc with hc | hc <;>
          simp [CabinFSM.applyOp, CabinFSM.force_fault] at hc⟩
  | clear_fault =>
    exact ⟨fun _ => rfl, fun hc => by
      rcases hc with hc | hc <;>
        simp [CabinFSM.applyOp, CabinFSM.clear_fault] at hc⟩

theorem applyOps_invariant (ops : List FSMOp) :
    ∀ (m : CabinFSM), fsmDataInvariant m →
      fsmDataInvariant (m.applyOps ops) := by
  induction ops with
  | nil => exact fun m h => h
  | cons op rest ih =>
    intro m h
    exact ih (m.applyOp op) (applyOp_invariant m op h)

/-- C1 (amended): along every operation sequence from the initial IDLE
state, the data is empty in IDLE and non-empty in COLLECTING and
PROCESSING; in FAULT the accumulated data may survive (it is only
dropped by `reset`/`clear_fault`), so the spec's "iff" holds in one
direction only. -/
theorem fsm_data_invariant_reachable (cabin_id : ℤ) (cfg : CycleCfg)
    (ops : List FSMOp) :
    fsmDataInvariant ((CabinFSM.init cabin_id cfg).applyOps ops) := by
  apply applyOps_invariant
  exact ⟨fun _ => rfl, fun hc => by
    rcases hc with hc | hc <;> simp [CabinFSM.init] at hc⟩

/-- C1 witness: the invariant at a concrete reachable state. -/
theorem fsm_data_invariant_witness :
    fsmDataInvariant ((CabinFSM.init 0 defaultCycleCfg).applyOps c1Ops) :=
  fsm_data_invariant_reachable 0 defaultCycleCfg c1Ops

/-! ### C2: the COLLECTING step -/

theorem riseEnd_iff (m : CabinFSM) (f : CabinFrame) (d : CycleData) :
    m.riseEnd f d = true ↔
      ∃ lp, m.last_pressure = some lp ∧
        m.cfg.min_collection_points ≤ d.pressures.length ∧
        m.cfg.end_pressure_rise ≤ f.rt_pressure - lp := by
  cases hlp : m.last_pressure with
  | none => simp [CabinFSM.riseEnd, hlp]
  | some lp => simp [CabinFSM.riseEnd, hlp, and_assoc]

/-- C2. From COLLECTING, `update` appends the frame and transitions on
the first met condition, in order: end-by-rise (with the minimum point
count), max points, max duration; failing those, FAULT on the
collection timeout; otherwise it stays COLLECTING. It never reaches
IDLE, and the appended data is kept in every branch, so a single
update transitions through at most one state. -/
theorem collecting_step (m : CabinFSM) (f : CabinFrame)
    (h : m.state = CycleState.COLLECTING) :
    (m.update f).data = m.data.appendFrame f ∧
    (m.update f).last_pressure = some f.rt_pressure ∧
    ((m.update f).state = CycleState.PROCESSING ↔
      (Cond1 m f ∨ Cond2 m f ∨ Cond3 m f)) ∧
    ((m.update f).state = CycleState.FAULT ↔
      (¬(Cond1 m f ∨ Cond2 m f ∨ Cond3 m f) ∧ CondTimeout m f)) ∧
    ((m.update f).state = CycleState.COLLECTING ↔
      (¬(Cond1 m f ∨ Cond2 m f ∨ Cond3 m f) ∧ ¬CondTimeout m f)) ∧
    (m.update f).state ≠ CycleState.IDLE := by
  have hc1 : (m.riseEnd f (m.data.appendFrame f) = true) ↔ Cond1 m f :=
    riseEnd_iff m f (m.data.appendFrame f)
  simp only [CabinFSM.update, h, CabinFSM.handleCollecting]
  by_cases h1 : m.riseEnd f (m.data.appendFrame f) = true
  · have hC1 : Cond1 m f := hc1.mp h1
    rw [if_pos h1]
    simp [hC1]
  · have hnC1 : ¬ Cond1 m f := fun hc => h1 (hc1.mpr hc)
    rw [if_neg h1]
    by_cases h2 : m.cfg.max_collection_points ≤ (m.data.appendFrame f).pressures.length
    · have hC2 : Cond2 m f := h2
      rw [if_pos h2]
      simp [hnC1, hC2]
    · have hnC2 : ¬ Cond2 m f := h2
      rw [if_neg h2]
      by_cases h3 : m.cfg.max_collection_duration_s ≤ f.timestamp - m.data.start_time
      · have hC3 : Cond3 m f := h3
        rw [if_pos h3]
        simp [hnC1, hnC2, hC3]
      · have hnC3 : ¬ Cond3 m f := h3
        rw [if_neg h3]
        by_cases h4 : m.cfg.collection_timeout_s ≤ f.timestamp - m.data.start_time
        · have hC4 : CondTimeout m f := h4
          rw [if_pos h4]
          simp [hnC1, hnC2, hnC3, hC4]
        · have hnC4 : ¬ CondTimeout m f := h4
          rw [if_neg h4]
          simp [hnC1, hnC2, hnC3, hnC4]

/-- C2 witness: mid-collection, one point gathered, a small rise well
before any terminator — the FSM appends and stays COLLECTING. -/
theorem collecting_step_witness :
    (mCollecting.update fNext).data = mCollecting.data.appendFrame fNext ∧
    (mCollecting.update fNext).last_pressure = some fNext.rt_pressure ∧
    ((mCollecting.update fNext).state = CycleState.PROCESSING ↔
      (Cond1 mCollecting fNext ∨ Cond2 mCollecting fNext ∨
        Cond3 mCollecting fNext)) ∧
    ((mCollecting.update fNext).state = CycleState.FAULT ↔
      (¬(Cond1 mCollecting fNext ∨ Cond2 mCollecting fNext ∨
          Cond3 mCollecting fNext) ∧ CondTimeout mCollecting fNext)) ∧
    ((mCollecting.update fNext).state = CycleState.COLLECTING ↔
      (¬(Cond1 mCollecting fNext ∨ Cond2 mCollecting fNext ∨
          Cond3 mCollecting fNext) ∧ ¬CondTimeout mCollecting fNext)) ∧
    (mCollecting.update fNext).state ≠ CycleState.IDLE :=
  collecting_step mCollecting fNext rfl

/-! ### Rounding lemmas -/

theorem rndHalfEven_intCast (n : ℤ) : rndHalfEven (n : ℚ) = n := by
  unfold rndHalfEven
  rw [Int.floor_intCast]
  rw [if_pos (by norm_num)]

theorem rndHalfEven_eq_floor (x : ℚ) (h : x - (⌊x⌋ : ℚ) < 1/2) :
    rndHalfEven x = ⌊x⌋ := by
  unfold rndHalfEven
  rw [if_pos h]

theorem rndHalfEven_eq_floor_add_one (x : ℚ) (h : (1:ℚ)/2 < x - (⌊x⌋ : ℚ)) :
    rndHalfEven x = ⌊x⌋ + 1 := by
  unfold rndHalfEven
  rw [if_neg (by linarith), if_pos h]

theorem rndHalfEven_half_even (x : ℚ) (h : x - (⌊x⌋ : ℚ) = 1/2)
    (he : (2 : ℤ) ∣ ⌊x⌋) : rndHalfEven x = ⌊x⌋ := by
  unfold rndHalfEven
  rw [if_neg (by rw [h]; norm_num), if_neg (by rw [h]; norm_num), if_pos he]

theorem rndHalfEven_half_odd (x : ℚ) (h : x - (⌊x⌋ : ℚ) = 1/2)
    (he : ¬ (2 : ℤ) ∣ ⌊x⌋) : rndHalfEven x = ⌊x⌋ + 1 := by
  unfold rndHalfEven
  rw [if_neg (by rw [h]; norm_num), if_neg (by rw [h]; norm_num), if_neg he]

theorem floor_le_rndHalfEven (x : ℚ) : ⌊x⌋ ≤ rndHalfEven x := by
  unfold rndHalfEven
  split_ifs <;> omega

theorem rndHalfEven_le_ceil (x : ℚ) : rndHalfEven x ≤ ⌈x⌉ := by
  have hfc : ⌊x⌋ ≤ ⌈x⌉ := Int.floor_le_ceil x
  unfold rndHalfEven
  split_ifs with h1 h2 h3
  · exact hfc
  · have : (⌊x⌋ : ℚ) < x := by linarith
    have := Int.lt_ceil.mpr this
    omega
  · exact hfc
  · have : (⌊x⌋ : ℚ) < x := by linarith
    have := Int.lt_ceil.mpr this
    omega

theorem rndHalfEven_nonneg (x : ℚ) (h : 0 ≤ x) : 0 ≤ rndHalfEven x := by
  have h0 : (0 : ℤ) ≤ ⌊x⌋ := Int.le_floor.mpr (by exact_mod_cast h)
  have := floor_le_rndHalfEven x
  omega

theorem rndHalfEven_le_intCast (x : ℚ) (M : ℤ) (h : x ≤ (M : ℚ)) :
    rndHalfEven x ≤ M := by
  have := rndHalfEven_le_ceil x
  have := Int.ceil_le.mpr h
  omega

/-- Reflecting around an even integer commutes with half-even rounding:
`rnd (M − y) = M − rnd y` when `M` is even. -/
theorem rndHalfEven_even_sub (M : ℤ) (hM : (2 : ℤ) ∣ M) (y : ℚ) :
    rndHalfEven ((M : ℚ) - y) = M - rndHalfEven y := by
  have hfl : (⌊y⌋ : ℚ) ≤ y := Int.floor_le y
  have hfu : y < ⌊y⌋ + 1 := Int.lt_floor_add_one y
  by_cases hz : y - (⌊y⌋ : ℚ) = 0
  · have hy : y = ((⌊y⌋ : ℤ) : ℚ) := by linarith
    rw [hy, show (M : ℚ) - ((⌊y⌋ : ℤ) : ℚ) = ((M - ⌊y⌋ : ℤ) : ℚ) by push_cast; ring,
      rndHalfEven_intCast, rndHalfEven_intCast]
  · have hr0 : 0 < y - (⌊y⌋ : ℚ) :=
      lt_of_le_of_ne (by linarith) (Ne.symm hz)
    have hfloor : ⌊(M : ℚ) - y⌋ = M - ⌊y⌋ - 1 := by
      apply Int.floor_eq_iff.mpr
      constructor <;> push_cast <;> linarith
    have hfrac : (M : ℚ) - y - ((⌊(M : ℚ) - y⌋ : ℤ) : ℚ) =
        1 - (y - (⌊y⌋ : ℚ)) := by
      rw [hfloor]
      push_cast
      ring
    rcases lt_trichotomy (y - (⌊y⌋ : ℚ)) (1/2) with hlt | heq | hgt
    · rw [rndHalfEven_eq_floor_add_one _ (by rw [hfrac]; linarith),
        rndHalfEven_eq_floor _ hlt, hfloor]
      ring
    · by_cases he : (2 : ℤ) ∣ ⌊y⌋
      · rw [rndHalfEven_half_odd _ (by rw [hfrac, heq]; norm_num) (by rw [hfloor]; omega),
          rndHalfEven_half_even _ heq he, hfloor]
        ring
      · rw [rndHalfEven_half_even _ (by rw [hfrac, heq]; norm_num) (by rw [hfloor]; omega),
          rndHalfEven_half_odd _ heq he, hfloor]
        ring
    · rw [rndHalfEven_eq_floor _ (by rw [hfrac]; linarith),
        rndHalfEven_eq_floor_add_one _ hgt, hfloor]
      ring

theorem roundTo_nonneg (d : ℕ) (x : ℚ) (h : 0 ≤ x) : 0 ≤ roundTo d x := by
  unfold roundTo
  apply div_nonneg _ (by positivity)
  exact_mod_cast rndHalfEven_nonneg _ (by positivity)

theorem roundTo_le_one (d : ℕ) (x : ℚ) (h : x ≤ 1) : roundTo d x ≤ 1 := by
  unfold roundTo
  rw [div_le_one (by positivity)]
  have hx : x * 10 ^ d ≤ (((10 : ℤ) ^ d : ℤ) : ℚ) := by
    push_cast
    nlinarith [pow_pos (show (0:ℚ) < 10 by norm_num) d]
  exact_mod_cast rndHalfEven_le_intCast _ _ hx

/-- Rounding to 6 decimals commutes with `1 − ·` (10⁶ is even). -/
theorem round6_one_sub (p : ℚ) : round6 (1 - p) = 1 - round6 p := by
  unfold round6 roundTo
  have h := rndHalfEven_even_sub (10 ^ 6) (by norm_num) (p * 10 ^ 6)
  have harg : (1 - p) * (10:ℚ) ^ 6 = ((10 ^ 6 : ℤ) : ℚ) - p * 10 ^ 6 := by
    push_cast
    ring
  rw [harg, h]
  push_cast
  field_simp
  norm_num

/-! ### C4: the predict contract -/

/-- C4. For a successful `predict` on a model probability `p ∈ [0,1]`:
label is 1 exactly when `p ≥ threshold` and 0 otherwise, the reported
probability and confidence lie in `[0,1]`, confidence equals the
probability for label 1 and its complement for label 0 (both reported
rounded to 6 decimals), and the synthesized `-1` result carries zero
probability and confidence. -/
theorem predict_contract (p t : ℚ) (h0 : 0 ≤ p) (h1 : p ≤ 1) :
    ((predict p t).label = 1 ↔ t ≤ p) ∧
    ((predict p t).label = 0 ↔ p < t) ∧
    (predict p t).probability = round6 p ∧
    0 ≤ (predict p t).probability ∧ (predict p t).probability ≤ 1 ∧
    0 ≤ (predict p t).confidence ∧ (predict p t).confidence ≤ 1 ∧
    ((predict p t).label = 1 →
      (predict p t).confidence = (predict p t).probability) ∧
    ((predict p t).label = 0 →
      (predict p t).confidence = 1 - (predict p t).probability) ∧
    synthesizedResult.label = -1 ∧ synthesizedResult.probability = 0 ∧
    synthesizedResult.confidence = 0 := by
  by_cases ht : t ≤ p
  · have hl : (predict p t).label = 1 := by simp [predict, ht]
    have hp : (predict p t).probability = round6 p := rfl
    have hc : (predict p t).confidence = round6 p := by simp [predict, ht]
    refine ⟨⟨fun _ => ht, fun _ => hl⟩,
      ⟨fun h0' => ?_, fun hpt => absurd ht (not_le.mpr hpt)⟩,
      hp, ?_, ?_, ?_, ?_, fun _ => by rw [hc, hp], fun h0' => ?_,
      rfl, rfl, rfl⟩
    · rw [hl] at h0'
      exact absurd h0' (by norm_num)
    · rw [hp]
      exact roundTo_nonneg 6 p h0
    · rw [hp]
      exact roundTo_le_one 6 p h1
    · rw [hc]
      exact roundTo_nonneg 6 p h0
    · rw [hc]
      exact roundTo_le_one 6 p h1
    · rw [hl] at h0'
      exact absurd h0' (by norm_num)
  · have hl : (predict p t).label = 0 := by simp [predict, ht]
    have hp : (predict p t).probability = round6 p := rfl
    have hc : (predict p t).confidence = round6 (1 - p) := by
      simp [predict, ht]
    refine ⟨⟨fun h1' => ?_, fun hle => absurd hle ht⟩,
      ⟨fun _ => lt_of_not_le ht, fun _ => hl⟩,
      hp, ?_, ?_, ?_, ?_, fun h1' => ?_, fun _ => ?_, rfl, rfl, rfl⟩
    · rw [hl] at h1'
      exact absurd h1' (by norm_num)
    · rw [hp]
      exact roundTo_nonneg 6 p h0
    · rw [hp]
      exact roundTo_le_one 6 p h1
    · rw [hc]
      exact roundTo_nonneg 6 (1 - p) (by linarith)
    · rw [hc]
      exact roundTo_le_one 6 (1 - p) (by linarith)
    · rw [hl] at h1'
      exact absurd h1' (by norm_num)
    · rw [hc, hp]
      exact round6_one_sub p

/-- C4 witness: at `p = 1/2` against the default threshold 3/10. -/
theorem predict_contract_witness :
    ((predict (1/2) (3/10)).label = 1 ↔ (3:ℚ)/10 ≤ 1/2) ∧
    ((predict (1/2) (3/10)).label = 0 ↔ (1:ℚ)/2 < 3/10) ∧
    (predict (1/2) (3/10)).probability = round6 (1/2) ∧
    0 ≤ (predict (1/2) (3/10)).probability ∧
    (predict (1/2) (3/10)).probability ≤ 1 ∧
    0 ≤ (predict (1/2) (3/10)).confidence ∧
    (predict (1/2) (3/10)).confidence ≤ 1 ∧
    ((predict (1/2) (3/10)).label = 1 →
      (predict (1/2) (3/10)).confidence = (predict (1/2) (3/10)).probability) ∧
    ((predict (1/2) (3/10)).label = 0 →
      (predict (1/2) (3/10)).confidence =
        1 - (predict (1/2) (3/10)).probability) ∧
    synthesizedResult.label = -1 ∧ synthesizedResult.probability = 0 ∧
    synthesizedResult.confidence = 0 :=
  predict_contract (1/2) (3/10) (by norm_num) (by norm_num)

/-! ### C3: feature extraction -/

theorem roundTo_intCast (d : ℕ) (n : ℤ) : roundTo d ((n : ℚ)) = (n : ℚ) := by
  unfold roundTo
  have harg : (n : ℚ) * 10 ^ d = ((n * 10 ^ d : ℤ) : ℚ) := by
    push_cast
    ring
  rw [harg, rndHalfEven_intCast]
  push_cast
  rw [mul_div_assoc, div_self (by positivity), mul_one]

theorem foldl_max_mem (xs : List ℚ) (a : ℚ) :
    xs.foldl max a = a ∨ xs.foldl max a ∈ xs := by
  induction xs generalizing a with
  | nil => exact Or.inl rfl
  | cons x xs ih =>
    rw [List.foldl_cons]
    rcases ih (max a x) with h | h
    · rcases max_choice a x with hm | hm
      · exact Or.inl (by rw [h, hm])
      · exact Or.inr (by rw [h, hm]; exact List.mem_cons_self x xs)
    · exact Or.inr (List.mem_cons_of_mem x h)

theorem le_foldl_max (xs : List ℚ) (a : ℚ) :
    a ≤ xs.foldl max a ∧ ∀ y ∈ xs, y ≤ xs.foldl max a := by
  induction xs generalizing a with
  | nil => exact ⟨le_refl a, fun y hy => absurd hy (List.not_mem_nil y)⟩
  | cons x xs ih =>
    obtain ⟨h1, h2⟩ := ih (max a x)
    refine ⟨?_, fun y hy => ?_⟩
    · rw [List.foldl_cons]
      exact le_trans (le_max_left a x) h1
    · rw [List.foldl_cons]
      rcases List.mem_cons.mp hy with rfl | hy'
      · exact le_trans (le_max_right a y) h1
      · exact h2 y hy'

theorem foldl_min_mem (xs : List ℚ) (a : ℚ) :
    xs.foldl min a = a ∨ xs.foldl min a ∈ xs := by
  induction xs generalizing a with
  | nil => exact Or.inl rfl
  | cons x xs ih =>
    rw [List.foldl_cons]
    rcases ih (min a x) with h | h
    · rcases min_choice a x with hm | hm
      · exact Or.inl (by rw [h, hm])
      · exact Or.inr (by rw [h, hm]; exact List.mem_cons_self x xs)
    · exact Or.inr (List.mem_cons_of_mem x h)

theorem foldl_min_le (xs : List ℚ) (a : ℚ) :
    xs.foldl min a ≤ a ∧ ∀ y ∈ xs, xs.foldl min a ≤ y := by
  induction xs generalizing a with
  | nil => exact ⟨le_refl a, fun y hy => absurd hy (List.not_mem_nil y)⟩
  | cons x xs ih =>
    obtain ⟨h1, h2⟩ := ih (min a x)
    refine ⟨?_, fun y hy => ?_⟩
    · rw [List.foldl_cons]
      exact le_trans h1 (min_le_left a x)
    · rw [List.foldl_cons]
      rcases List.mem_cons.mp hy with rfl | hy'
      · exact le_trans h1 (min_le_right a y)
      · exact h2 y hy'

theorem listMax_spec (l : List ℚ) (h : l ≠ []) :
    listMax l ∈ l ∧ ∀ y ∈ l, y ≤ listMax l := by
  match l, h with
  | x :: xs, _ =>
    constructor
    · rcases foldl_max_mem xs x with h' | h'
      · rw [listMax, h']
        exact List.mem_cons_self x xs
      · exact List.mem_cons_of_mem x (by rw [listMax]; exact h')
    · intro y hy
      rcases List.mem_cons.mp hy with rfl | hy'
      · exact (le_foldl_max xs y).1
      · exact (le_foldl_max xs x).2 y hy'

theorem listMin_spec (l : List ℚ) (h : l ≠ []) :
    listMin l ∈ l ∧ ∀ y ∈ l, listMin l ≤ y := by
  match l, h with
  | x :: xs, _ =>
    constructor
    · rcases foldl_min_mem xs x with h' | h'
      · rw [listMin, h']
        exact List.mem_cons_self x xs
      · exact List.mem_cons_of_mem x (by rw [listMin]; exact h')
    · intro y hy
      rcases List.mem_cons.mp hy with rfl | hy'
      · exact (foldl_min_le xs y).1
      · exact (foldl_min_le xs x).2 y hy'

theorem enumFrom_sum_shift (l : List ℚ) (a b : ℚ) : ∀ (k : ℕ),
    ((List.enumFrom k l).map (fun p => ((p.1 : ℚ) - a) * (p.2 - b))).sum =
      ((List.enumFrom k l).map (fun p => (p.1 : ℚ) * p.2)).sum
        - a * l.sum
        - b * ((List.enumFrom k l).map (fun p => ((p.1 : ℚ)))).sum
        + (l.length : ℚ) * a * b := by
  induction l with
  | nil => intro k; simp
  | cons x xs ih =>
    intro k
    simp only [List.enumFrom_cons, List.map_cons, List.sum_cons,
      List.length_cons, List.sum_cons]
    rw [ih (k + 1)]
    push_cast
    ring

theorem enumFrom_sq_shift (l : List ℚ) (a : ℚ) : ∀ (k : ℕ),
    ((List.enumFrom k l).map (fun p => ((p.1 : ℚ) - a) ^ 2)).sum =
      ((List.enumFrom k l).map (fun p => ((p.1 : ℚ)) ^ 2)).sum
        - 2 * a * ((List.enumFrom k l).map (fun p => ((p.1 : ℚ)))).sum
        + (l.length : ℚ) * a ^ 2 := by
  induction l with
  | nil => intro k; simp
  | cons x xs ih =>
    intro k
    simp only [List.enumFrom_cons, List.map_cons, List.sum_cons,
      List.length_cons]
    rw [ih (k + 1)]
    push_cast
    ring

theorem centeredNum_expand (l : List ℚ) :
    centeredNum l = idxProdSum l - xMean l * l.sum - listMean l * idxSum l +
      (l.length : ℚ) * xMean l * listMean l := by
  unfold centeredNum idxProdSum idxSum
  exact enumFrom_sum_shift l (xMean l) (listMean l) 0

theorem centeredDen_expand (l : List ℚ) :
    centeredDen l = idxSqSum l - 2 * xMean l * idxSum l +
      (l.length : ℚ) * (xMean l) ^ 2 := by
  unfold centeredDen idxSqSum idxSum
  exact enumFrom_sq_shift l (xMean l) 0

/-- The code's normal-equation slope coincides with the statistical
centred least-squares slope on every non-empty series. -/
theorem lsSlope_eq_centeredSlope (l : List ℚ) (h : l ≠ []) :
    lsSlope l = centeredSlope l := by
  have hn : (l.length : ℚ) ≠ 0 :=
    Nat.cast_ne_zero.mpr (fun hz => h (List.length_eq_zero.mp hz))
  have hnum : (l.length : ℚ) * centeredNum l =
      (l.length : ℚ) * idxProdSum l - idxSum l * l.sum := by
    rw [centeredNum_expand]
    unfold xMean listMean
    field_simp
    ring
  have hden : (l.length : ℚ) * centeredDen l =
      (l.length : ℚ) * idxSqSum l - (idxSum l) ^ 2 := by
    rw [centeredDen_expand]
    unfold xMean
    field_simp
    ring
  unfold lsSlope centeredSlope
  rw [← hnum, ← hden, mul_div_mul_left _ _ hn]

/-- The centred denominator is positive as soon as two samples exist
(the abscissas 0 and 1 cannot both equal their mean). -/
theorem centeredDen_pos (l : List ℚ) (h : 2 ≤ l.length) :
    0 < centeredDen l := by
  match l, h with
  | x :: y :: rest, _ =>
    have hexp : centeredDen (x :: y :: rest) =
        ((0 : ℚ) - xMean (x :: y :: rest)) ^ 2 +
          ((1 : ℚ) - xMean (x :: y :: rest)) ^ 2 +
          ((List.enumFrom 2 rest).map
            (fun p => ((p.1 : ℚ) - xMean (x :: y :: rest)) ^ 2)).sum := by
      show ((List.enumFrom 0 (x :: y :: rest)).map
          (fun p => ((p.1 : ℚ) - xMean (x :: y :: rest)) ^ 2)).sum = _
      simp only [List.enumFrom_cons, List.map_cons, List.sum_cons]
      push_cast
      ring
    have hrest : 0 ≤ ((List.enumFrom 2 rest).map
        (fun p => ((p.1 : ℚ) - xMean (x :: y :: rest)) ^ 2)).sum := by
      apply List.sum_nonneg
      intro z hz
      obtain ⟨p, _, rfl⟩ := List.mem_map.mp hz
      positivity
    rw [hexp]
    nlinarith [sq_nonneg (xMean (x :: y :: rest)),
      sq_nonneg (1 - xMean (x :: y :: rest)),
      sq_nonneg (2 * xMean (x :: y :: rest) - 1)]

/-- C3. `compute_features` returns all zeros (except the cast cavity
id) for fewer than two points; otherwise the rounded exact extrema,
difference, arithmetic mean, population variance and centred
least-squares slope; and on `[100, 200, 300, 400, 500]` with cavity 2
it yields max 500, min 100, difference 400, average 300, variance
20000, trend_slope 100, cavity_id 2.0. -/
theorem compute_features_contract :
    (∀ (l : List ℚ) (c : ℤ), l.length < 2 →
      compute_features l c = ⟨0, 0, 0, 0, 0, 0, (c : ℚ)⟩) ∧
    (∀ (l : List ℚ) (c : ℤ), 2 ≤ l.length →
      (listMax l ∈ l ∧ ∀ y ∈ l, y ≤ listMax l) ∧
      (listMin l ∈ l ∧ ∀ y ∈ l, listMin l ≤ y) ∧
      compute_features l c =
        ⟨round3 (listMax l), round3 (listMin l),
          round3 (listMax l - listMin l), round3 (listMean l),
          round3 (popVar l), round6 (centeredSlope l), (c : ℚ)⟩ ∧
      0 < centeredDen l ∧ lsSlope l = centeredSlope l) ∧
    compute_features [100, 200, 300, 400, 500] 2 =
      ⟨500, 100, 400, 300, 20000, 100, 2⟩ := by
  have hk : ∀ (l : List ℚ) (c : ℤ), 2 ≤ l.length →
      compute_features l c =
        ⟨round3 (listMax l), round3 (listMin l),
          round3 (listMax l - listMin l), round3 (listMean l),
          round3 (popVar l), round6 (centeredSlope l), (c : ℚ)⟩ := by
    intro l c h
    have hne : l ≠ [] := by
      intro hz
      rw [hz] at h
      simp at h
    rw [compute_features, if_neg (by omega),
      lsSlope_eq_centeredSlope l hne]
  refine ⟨fun l c h => by rw [compute_features, if_pos h], ?_, ?_⟩
  · intro l c h
    have hne : l ≠ [] := by
      intro hz
      rw [hz] at h
      simp at h
    exact ⟨listMax_spec l hne, listMin_spec l hne, hk l c h,
      centeredDen_pos l h, lsSlope_eq_centeredSlope l hne⟩
  · have hmax : listMax [100, 200, 300, 400, 500] = (500 : ℚ) := by
      norm_num [listMax, List.foldl, max_def]
    have hmin : listMin [100, 200, 300, 400, 500] = (100 : ℚ) := by
      norm_num [listMin, List.foldl, min_def]
    have hmean : listMean [100, 200, 300, 400, 500] = (300 : ℚ) := by
      norm_num [listMean]
    have hvar : popVar [100, 200, 300, 400, 500] = (20000 : ℚ) := by
      norm_num [popVar, hmean]
    have hslope : lsSlope [100, 200, 300, 400, 500] = (100 : ℚ) := by
      norm_num [lsSlope, idxProdSum, idxSum, idxSqSum, List.enum,
        List.enumFrom]
    have hcs : centeredSlope [100, 200, 300, 400, 500] = (100 : ℚ) := by
      rw [← lsSlope_eq_centeredSlope _ (by simp)]
      exact hslope
    rw [hk [100, 200, 300, 400, 500] 2 (by norm_num), hmax, hmin, hmean,
      hvar, hcs]
    have e500 : round3 (500 : ℚ) = 500 := by exact_mod_cast roundTo_intCast 3 500
    have e100 : round3 (100 : ℚ) = 100 := by exact_mod_cast roundTo_intCast 3 100
    have e400 : round3 ((400 : ℚ)) = 400 := by
      exact_mod_cast roundTo_intCast 3 400
    have e300 : round3 (300 : ℚ) = 300 := by exact_mod_cast roundTo_intCast 3 300
    have e20000 : round3 (20000 : ℚ) = 20000 := by
      exact_mod_cast roundTo_intCast 3 20000
    have e100s : round6 (100 : ℚ) = 100 := by
      exact_mod_cast roundTo_intCast 6 100
    rw [show (500 : ℚ) - 100 = 400 by norm_num, e500, e100, e400, e300,
      e20000, e100s]
    norm_num

/-- C3 witness: the short-input clause at `[42]`, cavity 1. -/
theorem compute_features_contract_witness :
    compute_features [42] 1 = ⟨0, 0, 0, 0, 0, 0, ((1 : ℤ) : ℚ)⟩ :=
  compute_features_contract.1 [42] 1 (by norm_num)
